import Mathlib

/-!
Verification development for the response-time analytics core of the
cctime repository: the transcript-line decoder (`parseTranscriptLine`),
the burst/turn segmenter (`analyzeAssistantSequences`), the simple
user/assistant pairing calculator (`calculateResponseTimes`), the metrics
reducer (`calculateMetrics`, `generateSummaryStatistics`,
`calculatePercentile`) and the streak analyzer (`calculateStreaks`).

Modelling conventions, shared by all definitions below:

* JavaScript values are modelled by dedicated inductive types covering the
  shapes the code inspects; JS truthiness of a field is modelled by an
  explicit `*Truthy` function (`""`, `undefined`/`none` are falsy, objects
  and arrays are truthy).
* Timestamps stay strings, as in the JSONL records; `new Date(s).getTime()`
  is modelled by `parseTimeMs`, an executable parser for the canonical
  `YYYY-MM-DDTHH:MM:SS.mmmZ` form the transcripts use (malformed strings map
  to 0 where JS would produce NaN; no claim exercises that corner).
  `Date.prototype.toISOString` is modelled by `isoStringOfMs` via the
  standard civil-from-days calendar algorithm.
* JS `Map`s are association lists preserving insertion order, JS `Set`s are
  duplicate-free lists preserving first-occurrence order (`setList`).
* JS numbers are `Int` where the code only adds/subtracts/compares epoch
  milliseconds, and `ℚ` where averages or percentile interpolation occur.
-/

/-! ### Small string machinery (structural, kernel-computable) -/

/-- Does the first char list start with the second? -/
def chStarts : List Char → List Char → Bool
  | _, [] => true
  | [], _ :: _ => false
  | c :: cs, p :: ps => c == p && chStarts cs ps

/-- Substring search over char lists. -/
def chContains : List Char → List Char → Bool
  | [], p => p.isEmpty
  | c :: cs, p => chStarts (c :: cs) p || chContains cs p

/-- Models JavaScript `s.includes(pat)` for the marker strings the code
tests. -/
def strContains (s pat : String) : Bool := chContains s.data pat.data

/-- Reads a run of decimal digit characters as a natural number (used by the
timestamp parser on well-formed fields). -/
def chNat : List Char → Nat → Nat
  | [], acc => acc
  | c :: cs, acc => chNat cs (acc * 10 + (c.toNat - 48))

/-- Splits a char list at every occurrence of a separator character. -/
def chSplit (sep : Char) : List Char → List (List Char)
  | [] => [[]]
  | c :: cs =>
    let r := chSplit sep cs
    if c == sep then [] :: r
    else
      match r with
      | [] => [[c]]
      | h :: t => (c :: h) :: t

/-- Whitespace characters recognised when modelling JS `String.prototype.trim`
on log lines (the transcripts only contain ASCII whitespace). -/
def wsChar (c : Char) : Bool := c == ' ' || c == '\t' || c == '\n' || c == '\r'

/-- Models the JS test `!line.trim()`: the line is empty or whitespace-only. -/
def isBlank (s : String) : Bool := s.data.all wsChar

/-- Trims whitespace from both ends of a char list (JS `trim`). -/
def chTrim (l : List Char) : List Char :=
  ((l.dropWhile wsChar).reverse.dropWhile wsChar).reverse

/-- Joins char lists with single spaces (JS `Array.prototype.join(' ')`). -/
def chJoinSpace : List (List Char) → List Char
  | [] => []
  | [x] => x
  | x :: xs => x ++ ' ' :: chJoinSpace xs

/-! ### Calendar / epoch-millisecond model of the JS `Date` built-ins -/

/-- Days from civil date (proleptic Gregorian), the standard algorithm used to
model `Date.UTC`. -/
def daysFromCivil (y m d : Int) : Int :=
  let y2 := if m ≤ 2 then y - 1 else y
  let era := y2.fdiv 400
  let yoe := y2 - era * 400
  let mp := (m + 9) % 12
  let doy := (153 * mp + 2).fdiv 5 + d - 1
  let doe := yoe * 365 + yoe.fdiv 4 - yoe.fdiv 100 + doy
  era * 146097 + doe - 719468

/-- Civil date from days since the epoch, inverse of `daysFromCivil`. -/
def civilFromDays (z0 : Int) : Int × Int × Int :=
  let z := z0 + 719468
  let era := z.fdiv 146097
  let doe := z - era * 146097
  let yoe := (doe - doe.fdiv 1460 + doe.fdiv 36524 - doe.fdiv 146096).fdiv 365
  let y := yoe + era * 400
  let doy := doe - (365 * yoe + yoe.fdiv 4 - yoe.fdiv 100)
  let mp := (5 * doy + 2).fdiv 153
  let d := doy - (153 * mp + 2).fdiv 5 + 1
  let m := if mp < 10 then mp + 3 else mp - 9
  (if m ≤ 2 then y + 1 else y, m, d)

/-- Milliseconds in one day. -/
def dayMs : Int := 86400000

/-- Models `new Date(s).getTime()` on the canonical ISO-8601 UTC timestamp
strings `YYYY-MM-DDTHH:MM:SS.mmmZ` carried by the transcript records. -/
def parseTimeMs (s : String) : Int :=
  match chSplit 'T' s.data with
  | [datePart, timePart] =>
    match chSplit '-' datePart with
    | [ys, ms, ds] =>
      match chSplit ':' ((chSplit 'Z' timePart).headD []) with
      | [hs, mins, secPart] =>
        let sp := chSplit '.' secPart
        let ss := sp.headD []
        let mss := (sp.drop 1).headD []
        daysFromCivil (chNat ys 0) (chNat ms 0) (chNat ds 0) * dayMs
          + (chNat hs 0 : Int) * 3600000 + (chNat mins 0 : Int) * 60000
          + (chNat ss 0 : Int) * 1000 + (chNat mss 0 : Int)
      | _ => 0
    | _ => 0
  | _ => 0

/-- Left-pads the decimal rendering of a (nonnegative) integer with zeros. -/
def padNum (width : Nat) (n : Int) : String :=
  let s := toString n.toNat
  ⟨List.replicate (width - s.length) '0' ++ s.data⟩

/-- Renders the `YYYY-MM-DD` part of `Date.prototype.toISOString` for a day
number (days since the Unix epoch). -/
def isoDateOfDay (day : Int) : String :=
  let c := civilFromDays day
  padNum 4 c.1 ++ "-" ++ padNum 2 c.2.1 ++ "-" ++ padNum 2 c.2.2

/-- Models `new Date(t).toISOString()` for epoch milliseconds `t`. -/
def isoStringOfMs (t : Int) : String :=
  let day := t.fdiv dayMs
  let rem := t % dayMs
  isoDateOfDay day ++ "T" ++ padNum 2 (rem.fdiv 3600000) ++ ":"
    ++ padNum 2 ((rem.fdiv 60000) % 60) ++ ":" ++ padNum 2 ((rem.fdiv 1000) % 60)
    ++ "." ++ padNum 3 (rem % 1000) ++ "Z"

/-- Models `new Date(ts).toISOString().split('T')[0]` applied to a timestamp
string: the calendar date (UTC) the instant falls on. -/
def toISODateString (ts : String) : String :=
  isoDateOfDay ((parseTimeMs ts).fdiv dayMs)

/-! ### Data model of raw transcript entries (as seen by the segmenter)

The segmenter `analyzeAssistantSequences` re-parses each JSONL line itself
(`JSON.parse`) and inspects `entry.type`, `entry.timestamp`,
`entry.isCompactSummary` and the shape of `entry.message`.  The inductives
below cover exactly the shapes those checks distinguish. -/

/-- One element of a message `content` array: its `type` tag, the truthiness
of its `tool_use_id` field, and its `text` field (`""` models an absent or
empty `text`, exactly the cases `c.text || ''` collapses). -/
structure ContentItem where
  ctype : String
  toolUseId : Bool
  text : String
deriving DecidableEq, Repr

/-- The `content` field of a message object: absent, a string, or an array of
content items (any other JS shape is never distinguished from `none` by the
checks the code performs). -/
inductive MsgContent
  | none
  | str (s : String)
  | arr (items : List ContentItem)
deriving DecidableEq, Repr

/-- JS truthiness of the `content` field (arrays are truthy, `""` is falsy). -/
def MsgContent.truthy : MsgContent → Bool
  | .none => false
  | .str s => s != ""
  | .arr _ => true

/-- A `message` field: either a plain string (older format) or an object with
`role`, `content` and `text` fields (`""` models an absent `role`/`text`). -/
inductive Message
  | str (s : String)
  | obj (role : String) (content : MsgContent) (mtext : String)
deriving DecidableEq, Repr

/-- JS truthiness of an optional `message` field: absent and `""` are falsy,
objects are truthy. -/
def msgTruthy : Option Message → Bool
  | Option.none => false
  | some (.str s) => s != ""
  | some (.obj _ _ _) => true

/-- One raw transcript entry as consumed by `analyzeAssistantSequences`:
`type`, `timestamp` (ISO string), optional `message`, and the
`isCompactSummary` continuation-marker flag. -/
structure Entry where
  etype : String
  timestamp : String
  message : Option Message
  isCompactSummary : Bool
deriving DecidableEq, Repr

/-- Placeholder used for out-of-range list indexing (never reached on the
in-range indices the algorithm produces). -/
def defaultEntry : Entry := ⟨"", "", Option.none, false⟩

/-- Has the content array an element with a truthy `tool_use_id` or of type
`tool_result` (the code's `hasToolResult` test)? -/
def hasToolResult (items : List ContentItem) : Bool :=
  items.any fun c => c.toolUseId || c.ctype == "tool_result"

/-- Number of `tool_use` elements of a content array. -/
def countToolUsesIn (items : List ContentItem) : Nat :=
  (items.filter fun c => c.ctype == "tool_use").length

/-- Tool-use count contributed by one assistant message
(`msg.content && Array.isArray(msg.content)` guard, then count). -/
def countToolUses : Message → Nat
  | .str _ => 0
  | .obj _ (.arr items) _ => countToolUsesIn items
  | .obj _ _ _ => 0

/-- Marker test for synthetic/system-injected plain-string user messages. -/
def isSyntheticText (s : String) : Bool :=
  strContains s "<command-" || strContains s "<system-reminder>"
    || strContains s "<user-prompt-submit-hook>"

/-- Direct translation of the segmenter's `extractMessageText` helper. -/
def extractMessageText : Message → String
  | .str s => s
  | .obj _ content mtext =>
    match content with
    | .str s =>
      if s != "" then s
      else if mtext != "" then mtext else "[No text content]"
    | .arr items =>
      let textContent : String :=
        ⟨chTrim (chJoinSpace
          (((items.filter fun c => c.ctype == "text" && !c.toolUseId).map
            (fun c => c.text)).map String.data))⟩
      if textContent != "" then textContent
      else if items.any (fun c => c.ctype == "tool_result") then
        "[Tool result response]"
      else if mtext != "" then mtext else "[No text content]"
    | .none => if mtext != "" then mtext else "[No text content]"

/-! ### The burst/turn segmenter (`analyzeAssistantSequences`) -/

/-- One reconstructed turn, mirroring the source's `AssistantSequence` record
(timestamps are carried as the original strings, latencies in ms). -/
structure AssistantSequence where
  userMessage : String
  userTimestamp : String
  firstAssistantTimestamp : String
  lastAssistantTimestamp : String
  responseTimeMs : Int
  durationMs : Int
  messageCount : Nat
  toolUseCount : Nat
deriving DecidableEq, Repr

/-- Models `userMessage.substring(0, 100) + (userMessage.length > 100 ? '...' : '')`. -/
def truncate100 (s : String) : String :=
  if s.length > 100 then ⟨s.data.take 100⟩ ++ "..." else s

/-- Models `if (!userMessage || userMessage === '[No text content]')`: the
extracted text survives only when truthy and not the no-content marker. -/
def emptyCheck (s : String) : Option String :=
  if s == "" || s == "[No text content]" then Option.none else some s

/-- Is the content field an array containing a tool-result element? -/
def isToolResultArr : MsgContent → Bool
  | .arr items => hasToolResult items
  | _ => false

/-- The outer-loop qualification of one entry as a genuine trigger, in the
source's check order.  Returns the extracted text when the entry opens a
turn, `none` when the scan just advances past it. -/
def classifyTrigger (e : Entry) : Option String :=
  if !(e.etype == "user" && msgTruthy e.message) then Option.none
  else if e.isCompactSummary then Option.none
  else
    match e.message with
    | some (.str s) =>
      if isSyntheticText s then Option.none
      else emptyCheck (extractMessageText (.str s))
    | some (.obj role content mtext) =>
      if role == "user" && content.truthy && isToolResultArr content then
        Option.none
      else if role == "" && !content.truthy then Option.none
      else emptyCheck (extractMessageText (.obj role content mtext))
    | Option.none => Option.none

/-- Mutable state of the inner burst scan: the first/last assistant index
(relative to the entry after the trigger; `none` models the `-1` sentinel),
the assistant-message and tool-use counters, and the previous
assistant-activity time used by the gap rule. -/
structure BurstState where
  firstIdx : Option Nat
  lastIdx : Option Nat
  messageCount : Nat
  toolUseCount : Nat
  prevTime : Option Int
deriving DecidableEq, Repr

/-- Initial burst state (`-1` indices, zero counters, no previous time). -/
def initBurst : BurstState := ⟨Option.none, Option.none, 0, 0, Option.none⟩

/-- The 15-minute gap threshold (`MAX_GAP_MS`). -/
def MAX_GAP_MS : Int := 15 * 60 * 1000

/-- Advances the burst over one assistant entry: record first/last index and
the new previous-activity time, and count the message and its tool uses when
the entry has a truthy message. -/
def advanceBurst (st : BurstState) (j : Nat) (e : Entry) : BurstState :=
  let st1 : BurstState :=
    { st with
      firstIdx := match st.firstIdx with | Option.none => some j | some f => some f
      lastIdx := some j
      prevTime := some (parseTimeMs e.timestamp) }
  match e.message with
  | Option.none => st1
  | some m =>
    if msgTruthy (some m) then
      { st1 with
        messageCount := st1.messageCount + 1
        toolUseCount := st1.toolUseCount + countToolUses m }
    else st1

/-- The inner scan of the segmenter (the `for j` loop): walks the entries
after the trigger, skipping compact summaries and synthetic strings,
stopping at a genuine user message, applying the 15-minute gap rule at
assistant entries, and letting tool-result user entries reset the gap clock.
`j` is the index of the head entry relative to the first scanned entry. -/
def scanBurst : List Entry → Nat → BurstState → BurstState
  | [], _, st => st
  | e :: rest, j, st =>
    if e.etype == "user" then
      if e.isCompactSummary then scanBurst rest (j + 1) st
      else
        match e.message with
        | some (.str s) =>
          if s != "" then
            if isSyntheticText s then scanBurst rest (j + 1) st else st
          else scanBurst rest (j + 1) st
        | some (.obj role content _) =>
          match content with
          | .str s =>
            if role == "user" && s != "" then st else scanBurst rest (j + 1) st
          | .arr items =>
            if role == "user" then
              if hasToolResult items then
                scanBurst rest (j + 1) { st with prevTime := some (parseTimeMs e.timestamp) }
              else st
            else scanBurst rest (j + 1) st
          | .none => scanBurst rest (j + 1) st
        | Option.none => scanBurst rest (j + 1) st
    else if e.etype == "assistant" then
      match st.prevTime with
      | some p =>
        if parseTimeMs e.timestamp - p > MAX_GAP_MS then st
        else scanBurst rest (j + 1) (advanceBurst st j e)
      | Option.none => scanBurst rest (j + 1) (advanceBurst st j e)
    else scanBurst rest (j + 1) st

/-- The outer `while (i < rawEntries.length)` loop of the segmenter, with an
explicit fuel argument (the loop advances `i` by at least one per iteration,
so fuel `entries.length` reproduces the loop exactly). -/
def analyzeLoop (entries : List Entry) : Nat → Nat → List AssistantSequence
  | 0, _ => []
  | fuel + 1, i =>
    if i < entries.length then
      let e := entries.getD i defaultEntry
      match classifyTrigger e with
      | Option.none => analyzeLoop entries fuel (i + 1)
      | some userMessage =>
        let st := scanBurst (entries.drop (i + 1)) 0 initBurst
        match st.firstIdx, st.lastIdx with
        | some f, some l =>
          let firstTs := (entries.getD (i + 1 + f) defaultEntry).timestamp
          let lastTs := (entries.getD (i + 1 + l) defaultEntry).timestamp
          { userMessage := truncate100 userMessage
            userTimestamp := e.timestamp
            firstAssistantTimestamp := firstTs
            lastAssistantTimestamp := lastTs
            responseTimeMs := parseTimeMs firstTs - parseTimeMs e.timestamp
            durationMs := parseTimeMs lastTs - parseTimeMs firstTs
            messageCount := st.messageCount
            toolUseCount := st.toolUseCount } :: analyzeLoop entries fuel (i + 1 + l + 1)
        | Option.none, some l => analyzeLoop entries fuel (i + 1 + l + 1)
        | _, Option.none => analyzeLoop entries fuel (i + 1)
    else []

/-- The gap-tolerant burst segmenter `analyzeAssistantSequences` (the
per-file turn reconstruction), restricted to its pure core: raw entries in,
list of sequences out. -/
def analyzeAssistantSequences (entries : List Entry) : List AssistantSequence :=
  analyzeLoop entries entries.length 0

/-! ### The transcript-line decoder (`parseTranscriptLine`) -/

/-- Usage telemetry sub-record, carried through opaquely by the decoder. -/
structure Usage where
  input_tokens : Option Int
  output_tokens : Option Int
  cache_read_input_tokens : Option Int
  cache_write_input_tokens : Option Int
deriving DecidableEq, Repr

/-- One decoded transcript entry (the source's `TranscriptEntry`): `type`
(named `etype` here), `timestamp`, and the optional payload fields. -/
structure TranscriptEntry where
  etype : String
  timestamp : String
  message : Option Message
  usage : Option Usage
  tool : Option String
  result : Option String
deriving DecidableEq, Repr

/-- The record produced by `JSON.parse` on one line, restricted to the fields
the decoder reads.  `none` models an absent field; a `type`/`timestamp` whose
JS value is falsy is modelled by `some ""` or `none` interchangeably (the
decoder only tests truthiness before use). -/
structure RawRecord where
  rtype : Option String
  timestamp : Option String
  message : Option Message
  usage : Option Usage
  tool : Option String
  result : Option String
deriving DecidableEq, Repr

/-- A raw input line together with the outcome of `JSON.parse`: either
structural failure or a parsed record. -/
inductive RawLine
  | malformed (line : String)
  | parsed (line : String) (record : RawRecord)
deriving DecidableEq, Repr

/-- JS truthiness of an optional string field. -/
def optStrTruthy : Option String → Bool
  | Option.none => false
  | some s => s != ""

/-- The four recognised entry kinds. -/
def validTypes : List String := ["user", "assistant", "system", "tool_result"]

/-- Direct translation of `parseTranscriptLine`: blank lines, structural
parse failures, records with a falsy `type` or `timestamp`, and records with
an unrecognised `type` are rejected (`none`); every other record becomes a
`TranscriptEntry` carrying its fields through unchanged.  The JS `catch`
around `JSON.parse` is the `malformed` case; nothing is thrown. -/
def parseTranscriptLine : RawLine → Option TranscriptEntry
  | .malformed _ => Option.none
  | .parsed line r =>
    if isBlank line then Option.none
    else if !optStrTruthy r.rtype || !optStrTruthy r.timestamp then Option.none
    else if !(validTypes.contains (r.rtype.getD "")) then Option.none
    else some ⟨r.rtype.getD "", r.timestamp.getD "", r.message, r.usage, r.tool, r.result⟩

/-! ### The simple pairing calculator (`calculateResponseTimes`) -/

/-- One recorded response time (the source's `ResponseTime`). -/
structure ResponseTime where
  userMessageTimestamp : String
  assistantMessageTimestamp : String
  responseTimeMs : ℚ
  sessionId : String
  projectPath : String
deriving DecidableEq, Repr

/-- Placeholder `ResponseTime` for out-of-range indexing (never reached). -/
def defaultResponseTime : ResponseTime := ⟨"", "", 0, "", ""⟩

/-- The fold of `calculateResponseTimes` over the entry list, carrying the
`lastUserMessage` register. -/
def calcRTLoop (sessionId projectPath : String) :
    List TranscriptEntry → Option TranscriptEntry → List ResponseTime
  | [], _ => []
  | e :: rest, lastUser =>
    if e.etype == "user" && msgTruthy e.message then
      calcRTLoop sessionId projectPath rest (some e)
    else if e.etype == "assistant" && msgTruthy e.message && lastUser.isSome then
      match lastUser with
      | some u =>
        let responseTimeMs : Int := parseTimeMs e.timestamp - parseTimeMs u.timestamp
        if responseTimeMs > 0 then
          ⟨u.timestamp, e.timestamp, (responseTimeMs : ℚ), sessionId, projectPath⟩
            :: calcRTLoop sessionId projectPath rest Option.none
        else calcRTLoop sessionId projectPath rest Option.none
      | Option.none => calcRTLoop sessionId projectPath rest Option.none
    else if e.etype == "user" && !msgTruthy e.message then
      calcRTLoop sessionId projectPath rest Option.none
    else calcRTLoop sessionId projectPath rest lastUser

/-- Direct translation of `calculateResponseTimes` (calculator.ts): pairs
each assistant message bearing a message with the pending user message and
records the latency only when it is strictly positive. -/
def calculateResponseTimes (entries : List TranscriptEntry)
    (sessionId projectPath : String) : List ResponseTime :=
  calcRTLoop sessionId projectPath entries Option.none

/-! ### Percentiles and the metrics reducer -/

/-- Direct translation of `calculatePercentile` (calculator.ts): sort a copy
ascending, take the element at `ceil(percentile/100 * n) - 1` floored at 0. -/
def calculatePercentile (values : List ℚ) (percentile : ℚ) : ℚ :=
  if values.length = 0 then 0
  else
    let sorted := values.insertionSort (· ≤ ·)
    let index : Int := ⌈percentile / 100 * (sorted.length : ℚ)⌉ - 1
    sorted.getD (max 0 index).toNat 0

/-- Direct translation of the second `calculatePercentile` variant
(aggregator), which expects its input already sorted and does not sort. -/
def calculatePercentileSorted (sortedValues : List ℚ) (percentile : ℚ) : ℚ :=
  if sortedValues.length = 0 then 0
  else
    let index : Int := ⌈percentile / 100 * (sortedValues.length : ℚ)⌉ - 1
    sortedValues.getD (max 0 index).toNat 0

/-- Modelled from the spec (section 4.3): the nearest-rank percentile, the
value at zero-based index `ceil(P/100 * n) - 1` clamped to `[0, n - 1]` of
the ascending-sorted latency list.  Written from the spec's words, for
comparison with the source-derived definitions above. -/
def specNearestRank (sorted : List ℚ) (p : ℚ) : ℚ :=
  let i : Int := ⌈p / 100 * (sorted.length : ℚ)⌉ - 1
  sorted.getD (max 0 (min ((sorted.length : Int) - 1) i)).toNat 0

/-- JS `Set` built by successive insertion: duplicate-free list keeping first
occurrences in order. -/
def setList {α : Type} [DecidableEq α] (l : List α) : List α :=
  l.foldl (fun acc x => if x ∈ acc then acc else acc ++ [x]) []

/-- Lookup in an insertion-ordered association list (JS `Map.get`). -/
def alistGet {α : Type} (m : List (String × α)) (k : String) : Option α :=
  (m.find? fun p => p.1 == k).map (·.2)

/-- Update in an insertion-ordered association list (JS `Map.set`): existing
keys are updated in place, new keys appended. -/
def alistSet {α : Type} (m : List (String × α)) (k : String) (v : α) :
    List (String × α) :=
  if (m.find? fun p => p.1 == k).isSome then
    m.map fun p => if p.1 == k then (k, v) else p
  else m ++ [(k, v)]

/-- Daily percentile triple. -/
structure Percentiles where
  p50 : ℚ
  p90 : ℚ
  p99 : ℚ
deriving DecidableEq, Repr

/-- Daily aggregate (the source's `DailyResponseTime`). -/
structure DailyResponseTime where
  date : String
  totalResponseTimeMs : ℚ
  averageResponseTimeMs : ℚ
  responseCount : Nat
  sessions : List String
  percentiles : Percentiles
deriving DecidableEq, Repr

/-- Per-session aggregate (the source's `SessionMetrics`). -/
structure SessionMetrics where
  sessionId : String
  projectPath : String
  totalResponses : Nat
  totalResponseTimeMs : ℚ
  averageResponseTimeMs : ℚ
  firstMessage : String
  lastMessage : String
deriving DecidableEq, Repr

/-- Global summary (the source's `SummaryStatistics`; the `dateRange.from`
and `dateRange.to` fields are `fromDate`/`toDate` here because `from` is a
Lean keyword). -/
structure SummaryStatistics where
  totalResponseTimeMs : ℚ
  totalResponses : Nat
  averageResponseTimeMs : ℚ
  uniqueSessions : Nat
  fromDate : String
  toDate : String
deriving DecidableEq, Repr

/-- The reducer's output triple (the source's `ProcessedData`). -/
structure ProcessedData where
  daily : List (String × DailyResponseTime)
  sessions : List (String × SessionMetrics)
  summary : SummaryStatistics
deriving DecidableEq, Repr

/-- Direct translation of `groupByDate` (calculator.ts). -/
def groupByDate (responseTimes : List ResponseTime) :
    List (String × List ResponseTime) :=
  responseTimes.foldl
    (fun grouped rt =>
      let date := toISODateString rt.userMessageTimestamp
      alistSet grouped date ((alistGet grouped date).getD [] ++ [rt]))
    []

/-- Direct translation of `calculateMetrics` (calculator.ts): daily buckets,
session buckets and the global summary from one response-time list. -/
def calculateMetrics (responseTimes : List ResponseTime) : ProcessedData :=
  let dateGroups := groupByDate responseTimes
  let sessionGroups :=
    responseTimes.foldl
      (fun m rt => alistSet m rt.sessionId ((alistGet m rt.sessionId).getD [] ++ [rt]))
      []
  let daily := dateGroups.map fun p =>
    let times := p.2.map (·.responseTimeMs)
    (p.1,
      ({ date := p.1
         totalResponseTimeMs := times.foldl (· + ·) 0
         averageResponseTimeMs := times.foldl (· + ·) 0 / (times.length : ℚ)
         responseCount := p.2.length
         sessions := setList (p.2.map (·.sessionId))
         percentiles :=
           ⟨calculatePercentile times 50, calculatePercentile times 90,
             calculatePercentile times 99⟩ } : DailyResponseTime))
  let sessions := sessionGroups.map fun p =>
    let times := p.2.map (·.responseTimeMs)
    let sortedTs := (p.2.map (·.userMessageTimestamp)).insertionSort (· ≤ ·)
    (p.1,
      ({ sessionId := p.1
         projectPath := (p.2.headD defaultResponseTime).projectPath
         totalResponses := p.2.length
         totalResponseTimeMs := times.foldl (· + ·) 0
         averageResponseTimeMs := times.foldl (· + ·) 0 / (times.length : ℚ)
         firstMessage := sortedTs.headD ""
         lastMessage := sortedTs.getLastD "" } : SessionMetrics))
  let allTimes := responseTimes.map (·.responseTimeMs)
  let allDates := (daily.map (·.1)).insertionSort (· ≤ ·)
  { daily := daily
    sessions := sessions
    summary :=
      { totalResponseTimeMs := allTimes.foldl (· + ·) 0
        totalResponses := responseTimes.length
        averageResponseTimeMs :=
          if responseTimes.length > 0 then
            allTimes.foldl (· + ·) 0 / (responseTimes.length : ℚ)
          else 0
        uniqueSessions := sessions.length
        fromDate := allDates.headD ""
        toDate := allDates.getLastD "" } }

/-- Direct translation of `generateSummaryStatistics` (aggregator): all-zero
summary with empty date-range strings on empty input, otherwise totals,
average and the min/max user-timestamp range rendered back to ISO form. -/
def generateSummaryStatistics (responseTimes : List ResponseTime)
    (sessionMetrics : List (String × SessionMetrics)) : SummaryStatistics :=
  if responseTimes.length = 0 then ⟨0, 0, 0, 0, "", ""⟩
  else
    let total := (responseTimes.map (·.responseTimeMs)).foldl (· + ·) 0
    let timestamps := responseTimes.map fun rt => parseTimeMs rt.userMessageTimestamp
    { totalResponseTimeMs := total
      totalResponses := responseTimes.length
      averageResponseTimeMs := total / (responseTimes.length : ℚ)
      uniqueSessions := sessionMetrics.length
      fromDate := isoStringOfMs (timestamps.foldl min (timestamps.headD 0))
      toDate := isoStringOfMs (timestamps.foldl max (timestamps.headD 0)) }

/-! ### The streak analyzer (`calculateStreaks`)

The source works on `Date` objects: it reduces each session file's
`lastModified` instant to its `YYYY-MM-DD` key, sorts the distinct keys,
re-parses them to midnight `Date`s, and compares day differences via
`Math.floor((a - b) / 86400000)`.  The model below carries instants as epoch
milliseconds and calendar-date keys as day numbers (`t.fdiv dayMs`), which
are in order-preserving bijection with the `YYYY-MM-DD` strings, and makes
the implicit wall clock (`new Date()`) an explicit `now` parameter.  The
host is modelled as running in the UTC timezone, so `setHours(0,0,0,0)`
becomes truncation to the UTC midnight `(t.fdiv dayMs) * dayMs`. -/

/-- Streak result (the source's `StreakInfo`); the streak span bounds are the
midnight instants of the run's first and last days. -/
structure StreakInfo where
  currentStreak : Nat
  longestStreak : Nat
  longestStreakStart : Option Int
  longestStreakEnd : Option Int
  totalDaysUsed : Nat
deriving DecidableEq, Repr

/-- Loop registers of the forward streak scan. -/
structure StreakLoopState where
  longest : Nat
  longestStart : Option Int
  longestEnd : Option Int
  temp : Nat
  tempStart : Option Int
deriving DecidableEq, Repr

/-- The forward scan over the sorted distinct dates (`for i` loop): a
one-day difference extends the running streak, anything else closes it,
recording it if it beats the longest so far. -/
def streakLoop : List Int → Int → StreakLoopState → StreakLoopState
  | [], _, st => st
  | d :: rest, prev, st =>
    if (d - prev).fdiv dayMs = 1 then
      streakLoop rest d { st with temp := st.temp + 1 }
    else if st.temp > st.longest then
      streakLoop rest d ⟨st.temp, st.tempStart, some prev, 1, some d⟩
    else streakLoop rest d { st with temp := 1, tempStart := some d }

/-- The backward scan counting the current streak from the latest date. -/
def currentLoop : List Int → Int → Nat → Nat
  | [], _, acc => acc
  | d :: rest, check, acc =>
    if (check - d).fdiv dayMs = 1 then currentLoop rest d (acc + 1) else acc

/-- Models `isYesterday(date)` under the UTC host model: the date's calendar
day is the calendar day before `now`'s. -/
def isYesterdayUTC (date now : Int) : Bool :=
  date.fdiv dayMs = now.fdiv dayMs - 1

/-- Direct translation of `calculateStreaks`: `sessions` is the list of the
session files' `lastModified` instants and `now` the wall clock. -/
def calculateStreaks (sessions : List Int) (now : Int) : StreakInfo :=
  if sessions.length = 0 then ⟨0, 0, Option.none, Option.none, 0⟩
  else
    let daysUsed := setList (sessions.map fun t => t.fdiv dayMs)
    let sortedDates := (daysUsed.insertionSort (· ≤ ·)).map (· * dayMs)
    let hasToday := daysUsed.contains (now.fdiv dayMs)
    match sortedDates with
    | [] => ⟨0, 0, Option.none, Option.none, 0⟩
    | d0 :: rest =>
      let st := streakLoop rest d0 ⟨0, Option.none, Option.none, 1, some d0⟩
      let lastDate := (d0 :: rest).getLastD d0
      let closed : StreakLoopState :=
        if st.temp > st.longest then
          ⟨st.temp, st.tempStart, some lastDate, st.temp, st.tempStart⟩
        else st
      let current :=
        if hasToday || isYesterdayUTC lastDate now then
          currentLoop ((d0 :: rest).dropLast.reverse) lastDate 1
        else 0
      ⟨current, closed.longest, closed.longestStart, closed.longestEnd,
        daysUsed.length⟩

/-! ### Concrete example inputs used by the claim theorems -/

/-- A genuine user entry with a plain-string message. -/
def mkUserEntry (ts txt : String) : Entry := ⟨"user", ts, some (.str txt), false⟩

/-- An assistant entry with a plain-string message. -/
def mkAssistantEntry (ts : String) : Entry := ⟨"assistant", ts, some (.str "ok"), false⟩

/-- A tool-result user entry: role `user`, array content holding a
`tool_result` element. -/
def mkToolResultEntry (ts : String) : Entry :=
  ⟨"user", ts, some (.obj "user" (.arr [⟨"tool_result", true, ""⟩]) ""), false⟩

/-- A continuation-marker entry (`isCompactSummary: true`). -/
def mkCompactEntry (ts : String) : Entry :=
  ⟨"user", ts, some (.str "session continued"), true⟩

/-- A user entry whose array content extracts to empty text (one `text`
element whose text is empty). -/
def mkEmptyTextUserEntry (ts : String) : Entry :=
  ⟨"user", ts, some (.obj "user" (.arr [⟨"text", false, ""⟩]) ""), false⟩

/-- Tool-result extension stream: trigger, assistant, tool result, assistant,
with all gaps under 15 minutes. -/
def exToolResult : List Entry :=
  [mkUserEntry "2024-01-01T00:00:00.000Z" "hi",
   mkAssistantEntry "2024-01-01T00:00:01.000Z",
   mkToolResultEntry "2024-01-01T00:00:02.000Z",
   mkAssistantEntry "2024-01-01T00:00:03.000Z"]

/-- Gap-rule stream where the late event is the tool result itself: the tool
result arrives 20 minutes after the first assistant message, then another
assistant message follows one second later. -/
def exGapToolResult : List Entry :=
  [mkUserEntry "2024-01-01T00:00:00.000Z" "hi",
   mkAssistantEntry "2024-01-01T00:00:01.000Z",
   mkToolResultEntry "2024-01-01T00:20:01.000Z",
   mkAssistantEntry "2024-01-01T00:20:02.000Z"]

/-- Stream in which an empty-text user message follows an open burst. -/
def exEmptyBreak : List Entry :=
  [mkUserEntry "2024-01-01T00:00:00.000Z" "hi",
   mkAssistantEntry "2024-01-01T00:00:01.000Z",
   mkEmptyTextUserEntry "2024-01-01T00:00:02.000Z",
   mkAssistantEntry "2024-01-01T00:00:03.000Z"]

/-- Stream with out-of-order timestamps: the assistant timestamp precedes its
trigger by one hour. -/
def exNegative : List Entry :=
  [mkUserEntry "2024-01-01T01:00:00.000Z" "hi",
   mkAssistantEntry "2024-01-01T00:00:00.000Z"]

/-- Is this entry the burst-extending tool-result shape: a non-continuation
user entry whose message has role `user` and array content containing a tool
result? -/
def isToolResultUser (e : Entry) : Bool :=
  e.etype == "user" && !e.isCompactSummary &&
    (match e.message with
     | some (.obj role (.arr items) _) => role == "user" && hasToolResult items
     | _ => false)

/-! ### Helper lemmas about the segmenter -/

theorem getD_mem_of_lt {α : Type} (l : List α) (i : Nat) (d : α)
    (h : i < l.length) : l.getD i d ∈ l := by
  rw [List.getD_eq_getElem?_getD, List.getElem?_eq_getElem h]
  exact List.getElem_mem h

theorem classifyTrigger_skip (e : Entry)
    (h : e.etype ≠ "user" ∨ e.isCompactSummary = true) :
    classifyTrigger e = Option.none := by
  unfold classifyTrigger
  rcases h with h | h
  · simp [h]
  · simp [h]

theorem analyzeLoop_eq_nil (entries : List Entry)
    (h : ∀ e ∈ entries, classifyTrigger e = Option.none) :
    ∀ fuel i, analyzeLoop entries fuel i = [] := by
  intro fuel
  induction fuel with
  | zero => intro i; rfl
  | succ n ih =>
    intro i
    unfold analyzeLoop
    split
    · next hi =>
      simp only [h _ (getD_mem_of_lt entries i defaultEntry hi)]
      exact ih (i + 1)
    · rfl

theorem scanBurst_compact_skip (e : Entry) (rest : List Entry) (j : Nat)
    (st : BurstState) (he : e.etype = "user") (hc : e.isCompactSummary = true) :
    scanBurst (e :: rest) j st = scanBurst rest (j + 1) st := by
  simp only [scanBurst]
  simp [he, hc]

theorem scanBurst_toolResult_step (e : Entry) (rest : List Entry) (j : Nat)
    (st : BurstState) (h : isToolResultUser e = true) :
    scanBurst (e :: rest) j st =
      scanBurst rest (j + 1) { st with prevTime := some (parseTimeMs e.timestamp) } := by
  obtain ⟨et, ts, msg, compact⟩ := e
  unfold isToolResultUser at h
  simp only [Bool.and_eq_true, beq_iff_eq, Bool.not_eq_true'] at h
  obtain ⟨⟨het, hcomp⟩, hmsg⟩ := h
  subst het hcomp
  match msg with
  | some (.obj role (.arr items) mt) =>
    simp only [beq_iff_eq, Bool.and_eq_true] at hmsg
    obtain ⟨hrole, htr⟩ := hmsg
    subst hrole
    simp only [scanBurst]
    simp [htr]
  | some (.str s) => simp at hmsg
  | some (.obj role (.str s) mt) => simp at hmsg
  | some (.obj role .none mt) => simp at hmsg
  | Option.none => simp at hmsg

theorem scanBurst_gap_stop (e : Entry) (rest : List Entry) (j : Nat)
    (st : BurstState) (p : Int) (hp : st.prevTime = some p)
    (he : e.etype = "assistant")
    (hgap : parseTimeMs e.timestamp - p > MAX_GAP_MS) :
    scanBurst (e :: rest) j st = st := by
  unfold scanBurst
  simp [he, hp, hgap]

/-! ### Claim theorems C1 through C6 -/

/-- C1 (gap splitting): for the stream `User(t0), Assistant(t0+1s),
Assistant(t0+20m)` with a qualifying trigger, exactly one turn is emitted,
its `lastResponseTimestamp` is the first assistant's (`t0+1s`) because the
gap before the second assistant exceeds 15 minutes, and the second assistant
event yields no further turn. -/
theorem c1_gap_splitting (t0 t1 t2 : String)
    (h1 : parseTimeMs t1 = parseTimeMs t0 + 1000)
    (h2 : parseTimeMs t2 = parseTimeMs t0 + 1200000) :
    analyzeAssistantSequences
      [⟨"user", t0, some (.str "hello"), false⟩,
       ⟨"assistant", t1, some (.str "ok"), false⟩,
       ⟨"assistant", t2, some (.str "late"), false⟩] =
      [⟨"hello", t0, t1, t1, 1000, 0, 1, 0⟩] := by
  unfold analyzeAssistantSequences
  simp [analyzeLoop, classifyTrigger, scanBurst, advanceBurst, initBurst,
    MAX_GAP_MS, msgTruthy, extractMessageText, emptyCheck, isSyntheticText,
    strContains, chContains, chStarts, countToolUses, truncate100, h1, h2]
  decide

/-- Witness for C1 at concrete ISO timestamps one second and twenty minutes
after the base instant. -/
theorem c1_gap_splitting_witness :
    analyzeAssistantSequences
      [⟨"user", "2024-01-01T00:00:00.000Z", some (.str "hello"), false⟩,
       ⟨"assistant", "2024-01-01T00:00:01.000Z", some (.str "ok"), false⟩,
       ⟨"assistant", "2024-01-01T00:20:00.000Z", some (.str "late"), false⟩] =
      [⟨"hello", "2024-01-01T00:00:00.000Z", "2024-01-01T00:00:01.000Z",
        "2024-01-01T00:00:01.000Z", 1000, 0, 1, 0⟩] :=
  c1_gap_splitting "2024-01-01T00:00:00.000Z" "2024-01-01T00:00:01.000Z"
    "2024-01-01T00:20:00.000Z" (by decide) (by decide)

/-- C2 counterexample: in `exGapToolResult` the tool-result user event
arrives 20 minutes after the previous assistant activity, yet the burst is
NOT finished before it: the emitted turn's `lastResponseTimestamp` is the
assistant event after the tool result, its burst spans 1201000 ms (over 15
minutes) and counts both assistant messages — contradicting the claim that
the gap rule also fires at burst-extending tool-result events. -/
theorem c2_counterexample :
    analyzeAssistantSequences exGapToolResult =
      [⟨"hi", "2024-01-01T00:00:00.000Z", "2024-01-01T00:00:01.000Z",
        "2024-01-01T00:20:02.000Z", 1000, 1201000, 2, 0⟩] := by decide

/-- C2 (amended): the 15-minute gap rule is checked only when an assistant
event arrives: an assistant event more than 15 minutes after the previous
assistant-activity time ends the scan before that event, while a
burst-extending tool-result user event never ends the burst regardless of
its own gap — it only resets the gap clock to its own timestamp. -/
theorem c2_gap_rule_amended (e : Entry) (rest : List Entry) (j : Nat)
    (st : BurstState) (p : Int) (hp : st.prevTime = some p) :
    (e.etype = "assistant" → parseTimeMs e.timestamp - p > MAX_GAP_MS →
      scanBurst (e :: rest) j st = st)
    ∧ (isToolResultUser e = true →
      scanBurst (e :: rest) j st =
        scanBurst rest (j + 1) { st with prevTime := some (parseTimeMs e.timestamp) }) :=
  ⟨fun he hgap => scanBurst_gap_stop e rest j st p hp he hgap,
   fun htr => scanBurst_toolResult_step e rest j st htr⟩

/-- Witness for C2 (amended): a 20-minute-late assistant event stops the scan
of a burst state whose clock reads the base instant. -/
theorem c2_gap_rule_amended_witness :
    scanBurst [mkAssistantEntry "2024-01-01T00:20:01.000Z"] 5
      ⟨some 0, some 0, 1, 0, some (parseTimeMs "2024-01-01T00:00:01.000Z")⟩ =
      ⟨some 0, some 0, 1, 0, some (parseTimeMs "2024-01-01T00:00:01.000Z")⟩ :=
  (c2_gap_rule_amended (mkAssistantEntry "2024-01-01T00:20:01.000Z") [] 5
      ⟨some 0, some 0, 1, 0, some (parseTimeMs "2024-01-01T00:00:01.000Z")⟩
      (parseTimeMs "2024-01-01T00:00:01.000Z") rfl).1 rfl (by decide)

/-- C3 (tool-result extension): a tool-result user event inside an open
burst never ends the scan and never counts as assistant activity — the state
is unchanged except that the gap clock is reset to the event's timestamp —
and on the concrete stream `User, Assistant(A1), ToolResultUser,
Assistant(A2)` with sub-15-minute gaps exactly one turn is produced, with
`messageCount = 2` and `lastAssistantTimestamp` equal to A2's timestamp. -/
theorem c3_tool_result_extension (e : Entry) (rest : List Entry) (j : Nat)
    (st : BurstState) (h : isToolResultUser e = true) :
    scanBurst (e :: rest) j st =
      scanBurst rest (j + 1) { st with prevTime := some (parseTimeMs e.timestamp) }
    ∧ analyzeAssistantSequences exToolResult =
      [⟨"hi", "2024-01-01T00:00:00.000Z", "2024-01-01T00:00:01.000Z",
        "2024-01-01T00:00:03.000Z", 1000, 2000, 2, 0⟩] :=
  ⟨scanBurst_toolResult_step e rest j st h, by decide⟩

/-- Witness for C3 at a concrete tool-result entry and burst state. -/
theorem c3_tool_result_extension_witness :
    scanBurst [mkToolResultEntry "2024-01-01T00:00:02.000Z"] 1
      ⟨some 0, some 0, 1, 0, some 1000⟩ =
      ⟨some 0, some 0, 1, 0,
        some (parseTimeMs "2024-01-01T00:00:02.000Z")⟩ := by
  have h := c3_tool_result_extension (mkToolResultEntry "2024-01-01T00:00:02.000Z")
    [] 1 ⟨some 0, some 0, 1, 0, some 1000⟩ (by decide)
  exact h.1

/-- C4 counterexample: in `exEmptyBreak` the user message following the open
burst has array content extracting to empty text, so by the claim it should
not end the burst (one turn with two assistant messages, last timestamp
`00:00:03`); the code instead ends the burst at it — the emitted turn stops
at `00:00:01` with `messageCount = 1` — even though the very same entry does
not qualify as a trigger (second conjunct). -/
theorem c4_counterexample :
    analyzeAssistantSequences exEmptyBreak =
      [⟨"hi", "2024-01-01T00:00:00.000Z", "2024-01-01T00:00:01.000Z",
        "2024-01-01T00:00:01.000Z", 1000, 0, 1, 0⟩]
    ∧ classifyTrigger (mkEmptyTextUserEntry "2024-01-01T00:00:02.000Z") =
      Option.none := by decide

/-- C4 (amended): the in-burst termination check applies the
continuation-marker, synthetic-string and tool-result parts of the trigger
qualification rule but omits its non-empty-extracted-text requirement: any
non-continuation user entry whose message has role `user` and tool-result-free
array content ends the burst, with no condition on its extracted text; in
particular one whose extraction yields the no-content marker still ends the
burst while failing to qualify as a trigger. -/
theorem c4_inburst_termination_amended (e : Entry) (rest : List Entry)
    (j : Nat) (st : BurstState) (items : List ContentItem) (mt : String)
    (h1 : e.etype = "user") (h2 : e.isCompactSummary = false)
    (h3 : e.message = some (.obj "user" (.arr items) mt))
    (h4 : hasToolResult items = false) :
    scanBurst (e :: rest) j st = st
    ∧ (extractMessageText (.obj "user" (.arr items) mt) = "[No text content]" →
        classifyTrigger e = Option.none) := by
  constructor
  · unfold scanBurst
    simp [h1, h2, h3, h4]
  · intro hext
    unfold classifyTrigger
    simp [h1, h2, h3, h4, isToolResultArr, emptyCheck, hext, MsgContent.truthy]

/-- Witness for C4 (amended) at the concrete empty-text user entry. -/
theorem c4_inburst_termination_amended_witness :
    scanBurst [mkEmptyTextUserEntry "2024-01-01T00:00:02.000Z",
        mkAssistantEntry "2024-01-01T00:00:03.000Z"] 1
      ⟨some 0, some 0, 1, 0, some 1000⟩ = ⟨some 0, some 0, 1, 0, some 1000⟩
    ∧ classifyTrigger (mkEmptyTextUserEntry "2024-01-01T00:00:02.000Z") =
      Option.none := by
  have h := c4_inburst_termination_amended
    (mkEmptyTextUserEntry "2024-01-01T00:00:02.000Z")
    [mkAssistantEntry "2024-01-01T00:00:03.000Z"] 1
    ⟨some 0, some 0, 1, 0, some 1000⟩ [⟨"text", false, ""⟩] ""
    rfl rfl rfl (by decide)
  exact ⟨h.1, h.2 (by decide)⟩

/-- Every response time the pairing calculator records is strictly positive
(the `responseTimeMs > 0` guard), whatever the entry list and pending-user
register. -/
theorem calcRTLoop_pos (sid pp : String) :
    ∀ (entries : List TranscriptEntry) (lastUser : Option TranscriptEntry)
      (rt : ResponseTime), rt ∈ calcRTLoop sid pp entries lastUser →
      0 < rt.responseTimeMs := by
  intro entries
  induction entries with
  | nil =>
    intro lastUser rt h
    simp [calcRTLoop] at h
  | cons e rest ih =>
    intro lastUser rt h
    simp only [calcRTLoop] at h
    split at h
    · exact ih _ _ h
    · split at h
      · split at h
        · split at h
          · rcases List.mem_cons.mp h with hrt | hmem
            · subst hrt
              next hpos => exact Int.cast_pos.mpr hpos
            · exact ih _ _ hmem
          · exact ih _ _ h
        · exact ih _ _ h
      · split at h
        · exact ih _ _ h
        · exact ih _ _ h

/-- C5 counterexample: on `exNegative` (the assistant timestamp precedes its
trigger by one hour) the burst segmenter emits a turn with
`responseTimeMs = -3600000`, contradicting the claim that the segmenter's
emitted turns always have nonnegative latency and that negative-latency
turns are discarded. -/
theorem c5_counterexample :
    analyzeAssistantSequences exNegative =
      [⟨"hi", "2024-01-01T01:00:00.000Z", "2024-01-01T00:00:00.000Z",
        "2024-01-01T00:00:00.000Z", -3600000, 0, 1, 0⟩] := by decide

/-- C5 (amended): the negative-latency guard lives in the pairing calculator
`calculateResponseTimes`, not in the burst segmenter: every `ResponseTime`
it emits has strictly positive `responseTimeMs` (non-positive computed
latencies are discarded), while `analyzeAssistantSequences` performs no such
check and can emit negative latencies on out-of-order timestamps. -/
theorem c5_nonnegativity_amended (entries : List TranscriptEntry)
    (sid pp : String) (rt : ResponseTime)
    (h : rt ∈ calculateResponseTimes entries sid pp) :
    0 < rt.responseTimeMs :=
  calcRTLoop_pos sid pp entries Option.none rt h

/-- Witness for C5 (amended) on a concrete two-entry transcript. -/
theorem c5_nonnegativity_amended_witness :
    (0 : ℚ) <
      (⟨"2024-01-01T00:00:00.000Z", "2024-01-01T00:00:02.500Z", 2500, "s1",
        "p1"⟩ : ResponseTime).responseTimeMs :=
  c5_nonnegativity_amended
    [⟨"user", "2024-01-01T00:00:00.000Z", some (.str "q"), Option.none,
      Option.none, Option.none⟩,
     ⟨"assistant", "2024-01-01T00:00:02.500Z", some (.str "a"), Option.none,
      Option.none, Option.none⟩]
    "s1" "p1" _ (by decide)

/-- C6 (continuation markers never trigger): a stream whose entries are all
continuation-marker user events or assistant events yields zero turns, and a
continuation-marker user event inside an open burst is skipped with the
burst state untouched. -/
theorem c6_continuation_markers (entries : List Entry) (e : Entry)
    (rest : List Entry) (j : Nat) (st : BurstState)
    (h : ∀ x ∈ entries,
      (x.etype = "user" ∧ x.isCompactSummary = true) ∨ x.etype = "assistant")
    (he : e.etype = "user") (hc : e.isCompactSummary = true) :
    analyzeAssistantSequences entries = []
    ∧ scanBurst (e :: rest) j st = scanBurst rest (j + 1) st := by
  refine ⟨?_, scanBurst_compact_skip e rest j st he hc⟩
  unfold analyzeAssistantSequences
  refine analyzeLoop_eq_nil entries ?_ entries.length 0
  intro x hx
  rcases h x hx with ⟨_, hcx⟩ | hax
  · exact classifyTrigger_skip x (Or.inr hcx)
  · refine classifyTrigger_skip x (Or.inl ?_)
    rw [hax]
    decide

/-- Witness for C6 on a concrete marker-then-assistant stream. -/
theorem c6_continuation_markers_witness :
    analyzeAssistantSequences
      [mkCompactEntry "2024-01-01T00:00:00.000Z",
       mkAssistantEntry "2024-01-01T00:00:01.000Z"] = []
    ∧ scanBurst
        (mkCompactEntry "2024-01-01T00:00:00.000Z" ::
          [mkAssistantEntry "2024-01-01T00:00:01.000Z"]) 0 initBurst =
      scanBurst [mkAssistantEntry "2024-01-01T00:00:01.000Z"] 1 initBurst :=
  c6_continuation_markers _ _ _ 0 initBurst (by decide) rfl rfl

/-- Ceiling of a rational that is exactly an integer. -/
theorem ceil_eq_intCast (x : ℚ) (z : Int) (h : x = (z : ℚ)) : ⌈x⌉ = z := by
  rw [h, Int.ceil_intCast]

/-- On a nonempty sorted input with percentile at most 100, the
sorted-input percentile variant agrees with the spec's clamped nearest-rank
definition: the upper clamp is automatic because the rank index never
exceeds `n - 1`. -/
theorem percentileSorted_eq_spec (values : List ℚ) (p : ℚ)
    (hne : values ≠ []) (hp1 : p ≤ 100) :
    calculatePercentileSorted values p = specNearestRank values p := by
  unfold calculatePercentileSorted specNearestRank
  rw [if_neg (by simpa [List.length_eq_zero] using hne)]
  have hceil : ⌈p / 100 * (values.length : ℚ)⌉ ≤ (values.length : Int) := by
    rw [Int.ceil_le]
    push_cast
    have h0 : (0 : ℚ) ≤ (values.length : ℚ) := Nat.cast_nonneg _
    have hle : p / 100 ≤ 1 := by
      rw [div_le_one (by norm_num : (0 : ℚ) < 100)]
      exact hp1
    calc p / 100 * (values.length : ℚ) ≤ 1 * (values.length : ℚ) :=
          mul_le_mul_of_nonneg_right hle h0
      _ = (values.length : ℚ) := one_mul _
  have hidx : (max 0 (⌈p / 100 * (values.length : ℚ)⌉ - 1)).toNat
      = (max 0 (min ((values.length : Int) - 1)
          (⌈p / 100 * (values.length : ℚ)⌉ - 1))).toNat := by
    omega
  simp only [hidx]

/-- Evaluation scheme for the tens list: when `p/100 * 10` is exactly the
integer `z`, the percentile is the element at clamped index `z - 1`. -/
theorem calculatePercentile_ten (p : ℚ) (z : Int)
    (hz : p / 100 * 10 = (z : ℚ)) :
    calculatePercentile [1, 2, 3, 4, 5, 6, 7, 8, 9, 10] p =
      List.getD [1, 2, 3, 4, 5, 6, 7, 8, 9, 10] (max 0 (z - 1)).toNat 0 := by
  simp only [calculatePercentile]
  rw [if_neg (by decide)]
  rw [show List.insertionSort (fun a b => a ≤ b)
        ([1, 2, 3, 4, 5, 6, 7, 8, 9, 10] : List ℚ) =
      [1, 2, 3, 4, 5, 6, 7, 8, 9, 10] from by decide]
  rw [show ⌈p / 100 * ((([1, 2, 3, 4, 5, 6, 7, 8, 9, 10] : List ℚ).length : Nat) : ℚ)⌉ = z from by
    refine ceil_eq_intCast _ z ?_
    rw [show ((([1, 2, 3, 4, 5, 6, 7, 8, 9, 10] : List ℚ).length : Nat) : ℚ) = 10 from by norm_num]
    exact hz]

/-- C7 (percentile exactness): on every nonempty ascending-sorted latency
list and percentile within [0, 100], both source variants of
`calculatePercentile` compute exactly the spec's nearest-rank value (index
`ceil(P/100*n) - 1` clamped to `[0, n-1]`); in particular on
`[1, ..., 10]` the 50th, 90th and 100th percentiles are 5, 9 and 10. -/
theorem c7_percentile_exactness (values : List ℚ) (p : ℚ)
    (hne : values ≠ []) (hsorted : values.Sorted (· ≤ ·))
    (hp0 : 0 ≤ p) (hp1 : p ≤ 100) :
    calculatePercentile values p = specNearestRank values p
    ∧ calculatePercentileSorted values p = specNearestRank values p
    ∧ calculatePercentile [1, 2, 3, 4, 5, 6, 7, 8, 9, 10] 50 = 5
    ∧ calculatePercentile [1, 2, 3, 4, 5, 6, 7, 8, 9, 10] 90 = 9
    ∧ calculatePercentile [1, 2, 3, 4, 5, 6, 7, 8, 9, 10] 100 = 10 := by
  have hsort_eq : calculatePercentile values p = calculatePercentileSorted values p := by
    unfold calculatePercentile calculatePercentileSorted
    rw [List.Sorted.insertionSort_eq hsorted]
  refine ⟨hsort_eq.trans (percentileSorted_eq_spec values p hne hp1),
    percentileSorted_eq_spec values p hne hp1, ?_, ?_, ?_⟩
  · rw [calculatePercentile_ten 50 5 (by norm_num)]
    decide
  · rw [calculatePercentile_ten 90 9 (by norm_num)]
    decide
  · rw [calculatePercentile_ten 100 10 (by norm_num)]
    decide

/-- Witness for C7 on the ten-element list at the 90th percentile. -/
theorem c7_percentile_exactness_witness :
    calculatePercentile [1, 2, 3, 4, 5, 6, 7, 8, 9, 10] 90 =
      specNearestRank [1, 2, 3, 4, 5, 6, 7, 8, 9, 10] 90 :=
  (c7_percentile_exactness [1, 2, 3, 4, 5, 6, 7, 8, 9, 10] 90 (by decide)
    (by decide) (by decide) (by decide)).1

/-- C8 (empty-input zero-safety): reducing an empty response-time list gives
empty daily and session maps and an all-zero summary with empty date-range
strings and average 0, in both the calculator's `calculateMetrics` and the
aggregator's `generateSummaryStatistics` (for every session map the latter
is handed); both model functions are total, mirroring that the source raises
no exception on empty input. -/
theorem c8_empty_input_zero_safety :
    calculateMetrics [] = ⟨[], [], ⟨0, 0, 0, 0, "", ""⟩⟩
    ∧ ∀ sessionMetrics,
        generateSummaryStatistics [] sessionMetrics = ⟨0, 0, 0, 0, "", ""⟩ :=
  ⟨by decide, fun _ => rfl⟩

/-- C9 (decoder rejection): structural parse failures are rejected; a parsed
record is rejected exactly when its line is blank, its `type` or `timestamp`
field is missing (falsy), or its `type` is outside the four recognised
kinds; and every non-rejected record decodes to the entry carrying its
`type`, `timestamp` and optional `message`/`usage`/`tool`/`result` fields
through unchanged.  The model function is total: nothing is thrown. -/
theorem c9_decoder_rejection (s : String) (r : RawRecord) :
    parseTranscriptLine (.malformed s) = Option.none
    ∧ (parseTranscriptLine (.parsed s r) = Option.none ↔
        (isBlank s = true ∨ optStrTruthy r.rtype = false
          ∨ optStrTruthy r.timestamp = false
          ∨ validTypes.contains (r.rtype.getD "") = false))
    ∧ (parseTranscriptLine (.parsed s r) ≠ Option.none →
        parseTranscriptLine (.parsed s r) =
          some ⟨r.rtype.getD "", r.timestamp.getD "", r.message, r.usage,
            r.tool, r.result⟩) := by
  refine ⟨rfl, ?_, ?_⟩
  · simp only [parseTranscriptLine]
    split_ifs with h1 h2 h3 <;> simp_all <;> tauto
  · intro hne
    simp only [parseTranscriptLine] at hne ⊢
    split_ifs at hne ⊢ <;> simp_all

/-- Witness for C9: a well-formed user record decodes to its entry, and a
malformed line is rejected. -/
theorem c9_decoder_rejection_witness :
    parseTranscriptLine
      (.parsed "x" ⟨some "user", some "2024-01-01T00:00:00.000Z", Option.none,
        Option.none, Option.none, Option.none⟩) =
      some ⟨"user", "2024-01-01T00:00:00.000Z", Option.none, Option.none,
        Option.none, Option.none⟩
    ∧ parseTranscriptLine (.malformed "not json") = Option.none :=
  ⟨(c9_decoder_rejection "x"
      ⟨some "user", some "2024-01-01T00:00:00.000Z", Option.none, Option.none,
        Option.none, Option.none⟩).2.2 (by decide),
   (c9_decoder_rejection "not json"
      ⟨Option.none, Option.none, Option.none, Option.none, Option.none,
        Option.none⟩).1⟩

/-! ### Helper lemmas for the streak analyzer -/

theorem mem_setList_aux {α : Type} [DecidableEq α] :
    ∀ (l acc : List α) (x : α),
      x ∈ l.foldl (fun acc y => if y ∈ acc then acc else acc ++ [y]) acc ↔
        x ∈ acc ∨ x ∈ l := by
  intro l
  induction l with
  | nil => intro acc x; simp
  | cons a t ih =>
    intro acc x
    simp only [List.foldl_cons]
    by_cases ha : a ∈ acc
    · rw [if_pos ha, ih]
      constructor
      · rintro (h | h)
        · exact Or.inl h
        · exact Or.inr (List.mem_cons_of_mem _ h)
      · rintro (h | h)
        · exact Or.inl h
        · rcases List.mem_cons.mp h with rfl | h2
          · exact Or.inl ha
          · exact Or.inr h2
    · rw [if_neg ha, ih]
      simp only [List.mem_append, List.mem_singleton, List.mem_cons]
      tauto

theorem mem_setList {α : Type} [DecidableEq α] (l : List α) (x : α) :
    x ∈ setList l ↔ x ∈ l := by
  unfold setList
  rw [mem_setList_aux]
  simp

theorem getLastD_mem {α : Type} : ∀ (l : List α) (d : α), l ≠ [] → l.getLastD d ∈ l
  | [], _, h => absurd rfl h
  | [a], _, _ => by simp [List.getLastD_cons]
  | a :: b :: t, d, _ => by
    rw [List.getLastD_cons]
    exact List.mem_cons_of_mem _ (getLastD_mem (b :: t) a (by simp))

theorem sorted_le_getLastD : ∀ (l : List Int) (d : Int), l.Sorted (· ≤ ·) →
    ∀ x ∈ l, x ≤ l.getLastD d
  | [], _, _, x, hx => absurd hx (List.not_mem_nil x)
  | a :: t, d, hs, x, hx => by
    rw [List.getLastD_cons]
    rcases List.mem_cons.mp hx with rfl | hxt
    · cases t with
      | nil => simp [List.getLastD_cons]
      | cons b t2 =>
        exact (List.sorted_cons.mp hs).1 _ (getLastD_mem (b :: t2) x (by simp))
    · exact sorted_le_getLastD t a (List.sorted_cons.mp hs).2 x hxt

theorem getLastD_irrel {α : Type} : ∀ (l : List α) (d e : α), l ≠ [] →
    l.getLastD d = l.getLastD e
  | [], _, _, h => absurd rfl h
  | _ :: t, d, e, _ => by rw [List.getLastD_cons, List.getLastD_cons]

theorem getLastD_map_mul : ∀ (l : List Int) (c d : Int),
    (l.map (· * c)).getLastD (d * c) = l.getLastD d * c
  | [], _, _ => rfl
  | a :: t, c, d => by
    simp only [List.map_cons, List.getLastD_cons]
    exact getLastD_map_mul t c a

/-- Extraction of the current-streak guard: a nonzero current streak means
the input was nonempty and the guard fired — today's calendar day is among
the used days, or the latest used day is exactly yesterday. -/
theorem calculateStreaks_guard (sessions : List Int) (now : Int)
    (hcur : (calculateStreaks sessions now).currentStreak ≠ 0) :
    sessions ≠ [] ∧
      (now.fdiv dayMs ∈ setList (sessions.map fun t => t.fdiv dayMs) ∨
        ((setList (sessions.map fun t => t.fdiv dayMs)).insertionSort
            (· ≤ ·)).getLastD 0 =
          now.fdiv dayMs - 1) := by
  simp only [calculateStreaks] at hcur
  split at hcur
  · next hlen => simp at hcur
  · next hlen =>
    have hne : sessions ≠ [] := by
      intro h
      subst h
      simp at hlen
    refine ⟨hne, ?_⟩
    split at hcur
    · next heq => simp at hcur
    · next d0 rest heq =>
      have hsne : (setList (sessions.map fun t => t.fdiv dayMs)).insertionSort
          (· ≤ ·) ≠ [] := by
        intro h0
        rw [h0] at heq
        simp at heq
      split at hcur
      · next hg =>
        rcases Bool.or_eq_true_iff.mp hg with h | h
        · left
          simpa using h
        · right
          have hlast : (d0 :: rest).getLastD d0 =
              ((setList (sessions.map fun t => t.fdiv dayMs)).insertionSort
                (· ≤ ·)).getLastD 0 * dayMs := by
            rw [← heq]
            rw [getLastD_irrel _ d0 (0 * dayMs) (by rw [heq]; simp)]
            exact getLastD_map_mul _ dayMs 0
          rw [hlast] at h
          simp only [isYesterdayUTC, decide_eq_true_eq] at h
          rwa [Int.mul_fdiv_cancel _ (by norm_num [dayMs])] at h
      · next hg => simp at hcur

/-- C10 (streaks): when no session instant lies on a calendar day after
`now`'s (file modification times cannot postdate the analysis time), a
nonzero reported current streak implies that the most recent used day — a
session instant whose calendar day bounds all the others — is today or
yesterday; and on the concrete modification instants covering days 100, 101,
102 and 104 with `now` at noon of day 104, the analyzer reports
`longestStreak = 3` spanning the midnights of days 100 through 102,
`currentStreak = 1` and four distinct days used. -/
theorem c10_streaks (sessions : List Int) (now : Int)
    (hfuture : ∀ t ∈ sessions, t.fdiv dayMs ≤ now.fdiv dayMs)
    (hcur : (calculateStreaks sessions now).currentStreak ≠ 0) :
    (∃ t ∈ sessions, (∀ u ∈ sessions, u.fdiv dayMs ≤ t.fdiv dayMs) ∧
      (t.fdiv dayMs = now.fdiv dayMs ∨ t.fdiv dayMs = now.fdiv dayMs - 1))
    ∧ calculateStreaks
        [100 * dayMs + 5000, 101 * dayMs, 102 * dayMs + 999, 104 * dayMs]
        (104 * dayMs + 43200000) =
      ⟨1, 3, some (100 * dayMs), some (102 * dayMs), 4⟩ := by
  refine ⟨?_, by decide⟩
  obtain ⟨hne, hdisj⟩ := calculateStreaks_guard sessions now hcur
  have hsorted := List.sorted_insertionSort (· ≤ ·)
    (setList (sessions.map fun t => t.fdiv dayMs))
  obtain ⟨s0, hs0⟩ := List.exists_mem_of_ne_nil sessions hne
  have hs0mem : s0.fdiv dayMs ∈
      (setList (sessions.map fun t => t.fdiv dayMs)).insertionSort (· ≤ ·) :=
    (List.mem_insertionSort _).mpr
      ((mem_setList _ _).mpr (List.mem_map_of_mem _ hs0))
  have hSne : (setList (sessions.map fun t => t.fdiv dayMs)).insertionSort
      (· ≤ ·) ≠ [] := List.ne_nil_of_mem hs0mem
  have hlast_mem : ((setList (sessions.map fun t => t.fdiv dayMs)).insertionSort
      (· ≤ ·)).getLastD 0 ∈ sessions.map fun t => t.fdiv dayMs :=
    (mem_setList _ _).mp ((List.mem_insertionSort _).mp (getLastD_mem _ 0 hSne))
  obtain ⟨t, ht, htd⟩ := List.mem_map.mp hlast_mem
  refine ⟨t, ht, ?_, ?_⟩
  · intro u hu
    have humem : u.fdiv dayMs ∈
        (setList (sessions.map fun t => t.fdiv dayMs)).insertionSort (· ≤ ·) :=
      (List.mem_insertionSort _).mpr
        ((mem_setList _ _).mpr (List.mem_map_of_mem _ hu))
    have := sorted_le_getLastD _ 0 hsorted _ humem
    omega
  · rcases hdisj with htoday | hyest
    · have h1 : now.fdiv dayMs ≤
          ((setList (sessions.map fun t => t.fdiv dayMs)).insertionSort
            (· ≤ ·)).getLastD 0 :=
        sorted_le_getLastD _ 0 hsorted _
          ((List.mem_insertionSort _).mpr htoday)
      have h2 : t.fdiv dayMs ≤ now.fdiv dayMs := hfuture t ht
      left
      omega
    · right
      omega

/-- Witness for C10 at the concrete modification instants and clock. -/
theorem c10_streaks_witness :
    (∃ t ∈ ([100 * dayMs + 5000, 101 * dayMs, 102 * dayMs + 999,
        104 * dayMs] : List Int),
      (∀ u ∈ ([100 * dayMs + 5000, 101 * dayMs, 102 * dayMs + 999,
          104 * dayMs] : List Int), u.fdiv dayMs ≤ t.fdiv dayMs) ∧
      (t.fdiv dayMs = (104 * dayMs + 43200000).fdiv dayMs ∨
        t.fdiv dayMs = (104 * dayMs + 43200000).fdiv dayMs - 1))
    ∧ calculateStreaks
        [100 * dayMs + 5000, 101 * dayMs, 102 * dayMs + 999, 104 * dayMs]
        (104 * dayMs + 43200000) =
      ⟨1, 3, some (100 * dayMs), some (102 * dayMs), 4⟩ :=
  c10_streaks _ _ (by decide) (by decide)
